import Mathlib

/-!
Verification of the tgo message-ingestion and waiting-queue pipeline

Shallow embedding of the inbox-ledger producer/consumer (tgo-platform email
and DingTalk listeners) and of the visitor waiting queue with its trigger,
fallback and cleanup sweeps (tgo-api), together with proofs of the pipeline
properties stated in the specification.

Time is modelled in whole seconds as `Nat`; UUIDs are modelled as `Nat`;
database tables are modelled as lists of records.
-/

namespace Tgo

/-! ## Idempotency store (email_listener.TTLIdempotencyStore) -/

/-- In-memory TTL idempotency store keyed by `(platform_id, message_id)`.
Each entry maps a key to its expiry instant. -/
structure TTLIdempotencyStore where
  ttl : Nat
  store : List ((Nat × String) × Nat)
deriving DecidableEq, Repr

/-- Method `seen` first drops every entry whose expiry has passed (`exp <= now`),
then answers whether the key is present.  Returns the answer together with
the cleaned store, mirroring the in-place cleanup of the Python method. -/
def TTLIdempotencyStore.seen (s : TTLIdempotencyStore) (now : Nat)
    (platformId : Nat) (messageId : String) : Bool × TTLIdempotencyStore :=
  let cleaned := s.store.filter (fun kv => decide (now < kv.2))
  (cleaned.any (fun kv => kv.1 = (platformId, messageId)), ⟨s.ttl, cleaned⟩)

/-- Method `mark` records the key with expiry `now + ttl` (dict assignment replaces
any previous binding for the key). -/
def TTLIdempotencyStore.mark (s : TTLIdempotencyStore) (now : Nat)
    (platformId : Nat) (messageId : String) : TTLIdempotencyStore :=
  ⟨s.ttl, ((platformId, messageId), now + s.ttl) ::
    s.store.filter (fun kv => kv.1 ≠ (platformId, messageId))⟩

/-! ## Email inbox ledger (EmailInbox rows) -/

/-- Lifecycle status of an inbox-ledger record. -/
inductive InboxStatus
  | pending
  | processing
  | completed
  | failed
deriving DecidableEq, Repr

/-- One `email_inbox` row.  `fetchedAt` and `processedAt` are instants in
seconds; `retryCount` counts failed processing attempts. -/
structure EmailInbox where
  platformId : Nat
  projectId : Nat
  messageId : String
  imapUid : String
  fromAddress : String
  fromName : String
  subject : Option String
  body : String
  status : InboxStatus
  retryCount : Nat
  fetchedAt : Nat
  processedAt : Option Nat
  errorMessage : Option String
  aiReply : Option String
deriving DecidableEq, Repr

/-- Whether the ledger already holds a row with this
`(platform_id, message_id)` key — the unique constraint that makes a
duplicate insert raise `IntegrityError`. -/
def ledgerHasKey (ledger : List EmailInbox) (platformId : Nat)
    (messageId : String) : Bool :=
  ledger.any (fun r => r.platformId = platformId ∧ r.messageId = messageId)

/-- One raw message fetched over IMAP, after header decoding
(`Message-ID` already defaulted to the IMAP UID when absent). -/
structure RawEmail where
  messageId : String
  imapUid : Option String
  fromAddress : String
  fromName : String
  subject : Option String
  body : String
deriving DecidableEq, Repr

/-- The producer-side state touched by `_store_single_raw`: the idempotency
store, the durable ledger, and the set of IMAP UIDs flagged `\\Seen`. -/
structure EmailProducerState where
  idem : TTLIdempotencyStore
  ledger : List EmailInbox
  seenUids : List String
deriving DecidableEq, Repr

/-- Outcome of one `_store_single_raw` call. -/
inductive StoreOutcome
  | skippedSeen
  | inserted
  | duplicate
  | storeError
deriving DecidableEq, Repr

/-- Flag an IMAP UID as `\\Seen` when the raw message carries one
(`if uid: await self._mark_seen(p, uid)`). -/
def markSeenOpt (seenUids : List String) (uid : Option String) : List String :=
  match uid with
  | some u => u :: seenUids
  | none => seenUids

/-- The row built by `_store_single_raw` before `db.add`/`commit`. -/
def mkEmailRow (platformId projectId : Nat) (raw : RawEmail) (now : Nat) :
    EmailInbox :=
  { platformId := platformId
    projectId := projectId
    messageId := raw.messageId
    imapUid := raw.imapUid.getD ""
    fromAddress := raw.fromAddress
    fromName := raw.fromName
    subject := raw.subject
    body := raw.body
    status := .pending
    retryCount := 0
    fetchedAt := now
    processedAt := none
    errorMessage := none
    aiReply := none }

/-- Producer step `EmailChannelListener._store_single_raw`: skip when the idempotency
store has the key; otherwise attempt the durable insert.  A violated
`(platform_id, message_id)` unique constraint (`IntegrityError`) rolls the
insert back but still marks the idempotency store and flags the source
email `\\Seen`; any other database failure (`dbOk = false`) rolls back and
performs neither side effect, so the email stays unread for a later cycle. -/
def storeSingleRaw (platformId projectId : Nat) (st : EmailProducerState)
    (raw : RawEmail) (now : Nat) (dbOk : Bool) :
    EmailProducerState × StoreOutcome :=
  let seenRes := st.idem.seen now platformId raw.messageId
  if seenRes.1 then
    ({ st with idem := seenRes.2 }, .skippedSeen)
  else if ledgerHasKey st.ledger platformId raw.messageId then
    ({ idem := seenRes.2.mark now platformId raw.messageId
       ledger := st.ledger
       seenUids := markSeenOpt st.seenUids raw.imapUid }, .duplicate)
  else if dbOk then
    ({ idem := seenRes.2.mark now platformId raw.messageId
       ledger := st.ledger ++ [mkEmailRow platformId projectId raw now]
       seenUids := markSeenOpt st.seenUids raw.imapUid }, .inserted)
  else
    ({ st with idem := seenRes.2 }, .storeError)

/-! ## Consumer candidate selection (email `_process_pending_for_platform`,
DingTalk `_select_candidates`) -/

/-- Ordering key for pending rows: `ORDER BY fetched_at ASC`. -/
def fetchedAtLe (a b : EmailInbox) : Bool :=
  a.fetchedAt ≤ b.fetchedAt

/-- Ordering key for failed rows: `ORDER BY processed_at ASC NULLS FIRST`. -/
def processedAtLe (a b : EmailInbox) : Bool :=
  match a.processedAt, b.processedAt with
  | none, _ => true
  | some _, none => false
  | some x, some y => x ≤ y

/-- Exponential backoff delay in seconds: `max(1, 2 ** retry_count)`. -/
def backoffDelay (retryCount : Nat) : Nat :=
  max 1 (2 ^ retryCount)

/-- Whether a failed record's backoff window has elapsed:
`not rec.processed_at or (now - rec.processed_at).total_seconds() >= delay`. -/
def backoffElapsed (now : Nat) (r : EmailInbox) : Bool :=
  match r.processedAt with
  | none => true
  | some t => backoffDelay r.retryCount ≤ now - t

/-- The consumer loop over the failed pool: append each record whose backoff
window has elapsed, stopping as soon as the batch budget is exhausted
(`if len(candidates) >= batch_size: break`). -/
def takeEligibleFailed (now : Nat) : List EmailInbox → Nat → List EmailInbox
  | [], _ => []
  | _, 0 => []
  | r :: rs, Nat.succ k =>
    if backoffElapsed now r then r :: takeEligibleFailed now rs k
    else takeEligibleFailed now rs (Nat.succ k)

/-- Candidate selection for one platform and one cycle: all `pending` rows
oldest-first up to `batchSize`, topped up with `failed` rows that still have
retries left (`retry_count < max_retries`, pool capped at `3 * batchSize`,
ordered by `processed_at` nulls first) and whose backoff has elapsed. -/
def selectCandidates (recs : List EmailInbox) (platformId : Nat)
    (batchSize maxRetries now : Nat) : List EmailInbox :=
  let pending :=
    ((recs.filter (fun r =>
        r.platformId = platformId ∧ r.status = .pending)).insertionSort
      (fun a b => fetchedAtLe a b = true)).take batchSize
  let remaining := batchSize - pending.length
  if remaining = 0 then pending
  else
    let failedPool :=
      ((recs.filter (fun r =>
          r.platformId = platformId ∧ r.status = .failed ∧
            r.retryCount < maxRetries)).insertionSort
        (fun a b => processedAtLe a b = true)).take (batchSize * 3)
    pending ++ takeEligibleFailed now failedPool remaining

/-- Finalisation of one claimed record: on responder success the record
becomes `completed` with the reply stored and the error cleared; on any
exception it becomes `failed` with `retry_count` incremented, the error
message truncated to 2000 characters, and `processed_at = now`. -/
def finalizeRecord (now : Nat) (ok : Bool) (reply : String) (err : String)
    (r : EmailInbox) : EmailInbox :=
  if ok then
    { r with status := .completed, aiReply := some reply
             processedAt := some now, errorMessage := none }
  else
    { r with status := .failed, processedAt := some now
             retryCount := r.retryCount + 1
             errorMessage := some (err.take 2000) }

/-- One consumer cycle over the platform's table: each selected candidate is
claimed (`status = processing`, error cleared) and then finalised; rows not
selected are untouched, and no row is ever deleted. `respondOk`, `reply`
and `err` are oracles for the responder call's outcome per record. -/
def consumerCycle (recs : List EmailInbox) (platformId : Nat)
    (batchSize maxRetries now : Nat) (respondOk : EmailInbox → Bool)
    (reply err : EmailInbox → String) : List EmailInbox :=
  let selected := selectCandidates recs platformId batchSize maxRetries now
  recs.map (fun r =>
    if r ∈ selected then
      finalizeRecord now (respondOk r) (reply r) (err r)
        { r with status := .processing, errorMessage := none }
    else r)

/-! ## Waiting queue data model (tgo-api) -/

/-- Status `WaitingStatus` of a waiting-queue entry
(schemas/visitor_waiting_queue.WaitingStatusEnum). -/
inductive WaitingStatus
  | waiting
  | assigned
  | cancelled
  | expired
deriving DecidableEq, Repr

/-- Visitor service status; the values `NEW`, `QUEUED` and `CLOSED` appear
in the sources, `AI` and `HUMAN` are the spec's "already being handled by
AI" and "already assigned to staff" states. -/
inductive ServiceStatus
  | new
  | ai
  | queued
  | human
  | closed
deriving DecidableEq, Repr

/-- One visitor row (only the fields the queue pipeline touches). -/
structure Visitor where
  id : Nat
  serviceStatus : ServiceStatus
  updatedAt : Nat
deriving DecidableEq, Repr

/-- Modelled from the spec: `Visitor.is_unassigned` (the visitor model file
is absent from the sources).  The enqueue path "rejects if the visitor is
not currently eligible (e.g., already being handled by AI or already
assigned to staff)". -/
def Visitor.isUnassigned (v : Visitor) : Bool :=
  v.serviceStatus ≠ .ai ∧ v.serviceStatus ≠ .human

/-- Modelled from the spec: `Visitor.set_status_queued` "flips the
visitor's state to queued". -/
def Visitor.setStatusQueued (v : Visitor) : Visitor :=
  { v with serviceStatus := .queued }

/-- One `api_visitor_waiting_queue` row. -/
structure QueueEntry where
  id : Nat
  projectId : Nat
  visitorId : Nat
  priority : Int
  position : Nat
  status : WaitingStatus
  source : String
  urgency : String
  visitorMessage : String
  reason : Option String
  channelId : String
  channelType : Nat
  expiredAt : Option Nat
  lastAttemptAt : Option Nat
  attemptCount : Nat
  assignedStaffId : Option Nat
  assignedAt : Option Nat
  exitedAt : Option Nat
deriving DecidableEq, Repr

/-- Modelled from the spec: `QueueEntry.record_attempt` — "every assignment
attempt — successful or not — increments an attempt counter and stamps
`last_attempt_at`". -/
def QueueEntry.recordAttempt (e : QueueEntry) (now : Nat) : QueueEntry :=
  { e with attemptCount := e.attemptCount + 1, lastAttemptAt := some now }

/-- Modelled from the spec: `QueueEntry.assign_to_staff` — "transitions the
entry to `assigned`, stamping `assigned_at` and `assigned_staff_id`". -/
def QueueEntry.assignToStaff (e : QueueEntry) (staffId now : Nat) :
    QueueEntry :=
  { e with status := .assigned, assignedStaffId := some staffId
           assignedAt := some now, exitedAt := some now }

/-- Modelled from the spec: `QueueEntry.expire` — the cleanup sweep
"transitions them to `expired`". -/
def QueueEntry.expire (e : QueueEntry) (now : Nat) : QueueEntry :=
  { e with status := .expired, exitedAt := some now }

/-- Modelled from the spec: `QueueEntry.cancel` — "transitions
`waiting → cancelled`". -/
def QueueEntry.cancel (e : QueueEntry) (now : Nat) : QueueEntry :=
  { e with status := .cancelled, exitedAt := some now }

/-! ## Enqueue (chat_service.add_visitor_to_waiting_queue) -/

/-- Result object `AddToQueueResult`. -/
structure AddToQueueResult where
  success : Bool
  queuePosition : Nat
  queueEntryId : Option Nat
  alreadyInQueue : Bool
  cannotEnter : Bool
  currentStatus : Option ServiceStatus
deriving DecidableEq, Repr

/-- Per-project assignment-rule configuration row
(`api_visitor_assignment_rules`); `queue_wait_timeout_minutes` is nullable. -/
structure AssignmentRule where
  queueWaitTimeoutMinutes : Option Nat
deriving DecidableEq, Repr

/-- The existing-entry lookup: first `waiting` entry for this visitor and
project. -/
def findWaiting (entries : List QueueEntry) (visitorId projectId : Nat) :
    Option QueueEntry :=
  entries.find? (fun e =>
    e.visitorId = visitorId ∧ e.projectId = projectId ∧ e.status = .waiting)

/-- The project's current count of `waiting` entries. -/
def waitingCount (entries : List QueueEntry) (projectId : Nat) : Nat :=
  (entries.filter (fun e =>
    e.projectId = projectId ∧ e.status = .waiting)).length

/-- The effective queue timeout in minutes:
`if assignment_rule and assignment_rule.queue_wait_timeout_minutes`
(Python truthiness — `None` and `0` both fall through to the default). -/
def effectiveTimeoutMinutes (rule : Option AssignmentRule)
    (defaultMinutes : Nat) : Nat :=
  match rule with
  | some r =>
    match r.queueWaitTimeoutMinutes with
    | some t => if t ≠ 0 then t else defaultMinutes
    | none => defaultMinutes
  | none => defaultMinutes

/-- Enqueue `chat_service.add_visitor_to_waiting_queue`: reject an ineligible
visitor; return the existing `waiting` entry's position and id when the
visitor is already queued for the project; otherwise insert one new
`waiting` entry at position `current_waiting_count + 1` with
`expired_at = now + timeout` and flip the visitor to `queued`.
Returns the updated queue table, the updated visitor, and the result. -/
def addVisitorToWaitingQueue (entries : List QueueEntry) (visitor : Visitor)
    (projectId : Nat) (message : String) (channelId : String)
    (channelType : Nat) (reason : String) (rule : Option AssignmentRule)
    (defaultMinutes now newId : Nat) :
    List QueueEntry × Visitor × AddToQueueResult :=
  if ¬ visitor.isUnassigned then
    (entries, visitor,
      { success := false, queuePosition := 0, queueEntryId := none
        alreadyInQueue := false, cannotEnter := true
        currentStatus := some visitor.serviceStatus })
  else
    match findWaiting entries visitor.id projectId with
    | some existing =>
      (entries, visitor,
        { success := true, queuePosition := existing.position
          queueEntryId := some existing.id, alreadyInQueue := true
          cannotEnter := false, currentStatus := none })
    | none =>
      let pos := waitingCount entries projectId + 1
      let timeoutMinutes := effectiveTimeoutMinutes rule defaultMinutes
      let entry : QueueEntry :=
        { id := newId, projectId := projectId, visitorId := visitor.id
          priority := 1, position := pos, status := .waiting
          source := "system", urgency := "normal"
          visitorMessage := message, reason := some reason
          channelId := channelId, channelType := channelType
          expiredAt := some (now + timeoutMinutes * 60)
          lastAttemptAt := none, attemptCount := 0
          assignedStaffId := none, assignedAt := none, exitedAt := none }
      (entries ++ [entry], visitor.setStatusQueued,
        { success := true, queuePosition := pos, queueEntryId := some newId
          alreadyInQueue := false, cannotEnter := false
          currentStatus := none })

/-! ## Assignment sweeps (queue_trigger_service, process_waiting_queue) -/

/-- The order `ORDER BY priority DESC, position ASC`. -/
def queueOrder (a b : QueueEntry) : Bool :=
  b.priority < a.priority ∨ (a.priority = b.priority ∧ a.position ≤ b.position)

/-- The non-expired filter used by both sweeps:
`expired_at IS NULL OR expired_at > now()`. -/
def notExpired (now : Nat) (e : QueueEntry) : Bool :=
  match e.expiredAt with
  | none => true
  | some t => now < t

/-- The reactive sweep's batch (`_process_project_queue_internal`): the
project's `waiting`, non-expired entries in
`(priority DESC, position ASC)` order, capped at the batch size. -/
def sweepBatch (entries : List QueueEntry) (projectId : Nat)
    (now batchSize : Nat) : List QueueEntry :=
  ((entries.filter (fun e =>
      e.projectId = projectId ∧ e.status = .waiting ∧
        notExpired now e)).insertionSort
    (fun a b => queueOrder a b = true)).take batchSize

/-- The fallback eligibility filter:
`last_attempt_at IS NULL OR last_attempt_at < cutoff_time`. -/
def notAttemptedRecently (cutoff : Nat) (e : QueueEntry) : Bool :=
  match e.lastAttemptAt with
  | none => true
  | some t => t < cutoff

/-- The fallback sweep's global batch (`_process_fallback_batch`): all
`waiting`, non-expired entries not attempted since the cutoff, in
`(priority DESC, position ASC)` order, capped at the batch size. -/
def fallbackBatch (entries : List QueueEntry) (now cutoff batchSize : Nat) :
    List QueueEntry :=
  ((entries.filter (fun e =>
      e.status = .waiting ∧ notExpired now e = true ∧
        notAttemptedRecently cutoff e = true)).insertionSort
    (fun a b => queueOrder a b = true)).take batchSize

/-- The fallback sweep groups its global batch by project; the group for a
project keeps the global order. -/
def fallbackProjectGroup (entries : List QueueEntry)
    (now cutoff batchSize projectId : Nat) : List QueueEntry :=
  (fallbackBatch entries now cutoff batchSize).filter
    (fun e => e.projectId = projectId)

/-- Outcome of one `transfer_to_staff` attempt for one entry. -/
inductive AttemptOutcome
  | assigned : Nat → AttemptOutcome
  | noStaff
  | error
deriving DecidableEq, Repr

/-- The per-batch loop shared by the reactive and fallback sweeps: attempt
each entry in order, break out of the batch at the first attempt that
finds no available staff, and keep going past per-entry errors.  Returns
the entries actually attempted, in order. -/
def processInOrder (attempt : QueueEntry → AttemptOutcome) :
    List QueueEntry → List QueueEntry
  | [] => []
  | e :: es =>
    match attempt e with
    | .assigned _ => e :: processInOrder attempt es
    | .noStaff => [e]
    | .error => e :: processInOrder attempt es

/-- Lookup of `trigger_queue_for_entry`: the entry by id, only when still
`waiting`. -/
def triggerEntryLookup (entries : List QueueEntry) (entryId : Nat) :
    Option QueueEntry :=
  entries.find? (fun e => e.id = entryId ∧ e.status = .waiting)

/-! ## Cleanup sweep (`_cleanup_expired_entries`) -/

/-- An entry's `expired_at` is non-null and strictly in the past. -/
def pastDeadline (now : Nat) (e : QueueEntry) : Bool :=
  match e.expiredAt with
  | some t => t < now
  | none => false

/-- The cleanup sweep's selection: `waiting` entries past their deadline,
in batches of 100. -/
def selectExpired (entries : List QueueEntry) (now : Nat) :
    List QueueEntry :=
  (entries.filter (fun e =>
    e.status = .waiting ∧ pastDeadline now e = true)).take 100

/-- Reset one visitor during cleanup: only a visitor whose service status
is currently `QUEUED` is moved to `CLOSED` (with `updated_at` stamped);
any other visitor is left untouched. -/
def cleanupResetVisitor (sel : List QueueEntry) (now : Nat) (v : Visitor) :
    Visitor :=
  if sel.any (fun e => e.visitorId = v.id) ∧ v.serviceStatus = .queued then
    { v with serviceStatus := .closed, updatedAt := now }
  else v

/-- One cleanup sweep: every selected entry is expired and its visitor is
reset when currently `QUEUED`; nothing else changes and no row is deleted. -/
def cleanupExpiredEntries (entries : List QueueEntry)
    (visitors : List Visitor) (now : Nat) :
    List QueueEntry × List Visitor :=
  let sel := selectExpired entries now
  (entries.map (fun e => if e ∈ sel then e.expire now else e),
   visitors.map (cleanupResetVisitor sel now))

/-! ## Cancel endpoint (visitor_waiting_queue.cancel_queue_entry) -/

/-- HTTP-style failure of the cancel endpoint. -/
inductive CancelError
  | notFound
  | notWaiting (current : WaitingStatus)
deriving DecidableEq, Repr

/-- Trim `" |"` characters on both ends, as the Python `strip` call does. -/
def stripPipeSpace (s : String) : String :=
  (s.dropWhile (fun c => c = ' ' ∨ c = '|')).dropRightWhile
    (fun c => c = ' ' ∨ c = '|')

/-- The cancelled row written back by the endpoint: `entry.cancel()`, then
`entry.reason = f"{entry.reason or ''} | Cancelled: {reason}".strip(" |")`
when a reason was given. -/
def cancelledEntry (entry : QueueEntry) (reason : Option String)
    (now : Nat) : QueueEntry :=
  match reason with
  | some r =>
    { entry.cancel now with
        reason := some (stripPipeSpace
          ((entry.reason.getD "") ++ " | Cancelled: " ++ r)) }
  | none => entry.cancel now

/-- Endpoint `cancel_queue_entry`: look the entry up by id within the caller's
project; 404 when absent; **400 when the entry is not `waiting`**;
otherwise cancel it and append the optional reason. -/
def cancelQueueEntry (entries : List QueueEntry) (entryId projectId : Nat)
    (reason : Option String) (now : Nat) :
    Except CancelError (List QueueEntry) :=
  match entries.find? (fun e => e.id = entryId ∧ e.projectId = projectId) with
  | none => .error .notFound
  | some entry =>
    if entry.status = .waiting then
      .ok (entries.map (fun e =>
        if e = entry then cancelledEntry entry reason now else e))
    else
      .error (.notWaiting entry.status)

/-! ## Reactive trigger mutual exclusion (queue_trigger_service globals) -/

/-- The mutable global state of the reactive trigger: the set of project
ids currently being processed (`_processing_project_ids`) paired with the
multiset of sweeps actually running.  The lock around membership test and
insertion makes the test-and-add atomic, so one event of the transition
system below corresponds to one critical section of the Python code. -/
structure TriggerState where
  inProgress : List Nat
  activeSweeps : List Nat
deriving DecidableEq, Repr

/-- Events of the trigger system: a call to `trigger_queue_for_project`
and the completion (normal or by exception — the `finally` block) of one
sweep. -/
inductive TriggerEvent
  | trigger (projectId : Nat)
  | finish (projectId : Nat)
deriving DecidableEq, Repr

/-- One transition: a trigger call for a project already in the
in-progress set changes nothing and spawns no sweep; otherwise it adds the
project and spawns a sweep.  A finishing sweep discards its project from
the in-progress set and stops running. -/
def triggerStep (s : TriggerState) : TriggerEvent → TriggerState
  | .trigger pid =>
    if pid ∈ s.inProgress then s
    else ⟨pid :: s.inProgress, pid :: s.activeSweeps⟩
  | .finish pid => ⟨s.inProgress.erase pid, s.activeSweeps.erase pid⟩

/-- The state after a trace of events from process start
(both global sets empty). -/
def triggerRun (events : List TriggerEvent) : TriggerState :=
  events.foldl triggerStep ⟨[], []⟩

/-- The trigger system's invariant: no duplicate project in either set and
every running sweep's project is marked in-progress. -/
def TriggerInv (s : TriggerState) : Prop :=
  s.inProgress.Nodup ∧ s.activeSweeps.Nodup ∧
    ∀ pid, pid ∈ s.activeSweeps → pid ∈ s.inProgress

/-! ## Derived predicates -/

/-- At most one `waiting` entry per `(project_id, visitor_id)` pair. -/
def atMostOneWaiting (entries : List QueueEntry) : Prop :=
  ∀ pid vid,
    ((entries.filter (fun e =>
      e.visitorId = vid ∧ e.projectId = pid ∧
        e.status = .waiting)).length ≤ 1)

/-- The batch loop processes entries in batch order, never attempts an
entry located later than a no-staff attempt, and truncates the batch only
immediately after a no-staff attempt: `attempted` is a prefix of the
batch, everything strictly before its last element found staff (or hit a
per-entry error), and when entries were left unattempted the last
attempted entry is exactly one that found no staff. -/
def stopsAtFirstNoStaff (attempt : QueueEntry → AttemptOutcome)
    (batch attempted : List QueueEntry) : Prop :=
  ∃ rest, batch = attempted ++ rest ∧
    (∀ pre last, attempted = pre ++ [last] →
      ∀ e ∈ pre, attempt e ≠ .noStaff) ∧
    (rest ≠ [] → ∃ pre last, attempted = pre ++ [last] ∧
      attempt last = .noStaff)

/-! ## Concrete sample data used by the evaluation theorems -/

/-- A sample raw email. -/
def sampleRaw : RawEmail :=
  ⟨"m1", some "u1", "a@b.c", "a", none, "hi"⟩

/-- The ledger row built from `sampleRaw` at time 0. -/
def sampleRow : EmailInbox := mkEmailRow 7 1 sampleRaw 0

/-- A producer state whose ledger already holds the key `(7, "m1")`. -/
def sampleDupState : EmailProducerState := ⟨⟨3600, []⟩, [sampleRow], []⟩

/-- A failed row with one retry left and `processed_at = 10`. -/
def sampleFailedRow : EmailInbox :=
  { sampleRow with status := .failed, retryCount := 1
                   processedAt := some 10 }

/-- A failed row at the retry ceiling (`retry_count = 3`). -/
def sampleCeilRow : EmailInbox :=
  { sampleRow with status := .failed, retryCount := 3
                   processedAt := some 10 }

/-- A waiting queue entry for visitor 42 in project 9. -/
def sampleEntry : QueueEntry :=
  ⟨77, 9, 42, 1, 1, .waiting, "system", "normal", "m", some "r", "ch", 1,
    some 1800, none, 0, none, none, none⟩

/-- Visitor 42, currently queued. -/
def sampleVisitorQueued : Visitor := ⟨42, .queued, 0⟩

/-- Visitor 42, fresh. -/
def sampleVisitorNew : Visitor := ⟨42, .new, 0⟩

/-- A waiting entry for visitor 4 whose deadline (10) is in the past. -/
def sampleExpiredEntry : QueueEntry :=
  ⟨4, 9, 4, 1, 1, .waiting, "system", "normal", "m", none, "ch", 1,
    some 10, none, 0, none, none, none⟩

/-- Visitor 4, currently queued. -/
def sampleVisitor4Queued : Visitor := ⟨4, .queued, 0⟩

/-- Visitor 4, already in human service. -/
def sampleVisitor4Human : Visitor := ⟨4, .human, 3⟩

/-- A waiting entry used by the cancel endpoint theorems. -/
def sampleWaitEntry : QueueEntry :=
  ⟨1, 9, 42, 1, 1, .waiting, "system", "normal", "m", none, "ch", 1,
    none, none, 0, none, none, none⟩

/-- An already-assigned entry used by the cancel endpoint theorems. -/
def sampleAssignedEntry : QueueEntry :=
  ⟨1, 9, 42, 1, 1, .assigned, "system", "normal", "m", none, "ch", 1,
    none, none, 0, some 5, some 10, some 10⟩

/-- Three waiting entries realizing the ordering example of the spec:
priorities 1, 1, 3 at positions 1, 2, 1. -/
def sampleOrderEntries : List QueueEntry :=
  [⟨1, 9, 1, 1, 1, .waiting, "system", "normal", "m", none, "ch", 1,
      none, none, 0, none, none, none⟩,
   ⟨2, 9, 2, 1, 2, .waiting, "system", "normal", "m", none, "ch", 1,
      none, none, 0, none, none, none⟩,
   ⟨3, 9, 3, 3, 1, .waiting, "system", "normal", "m", none, "ch", 1,
      none, none, 0, none, none, none⟩]

/-! ## Helper lemmas -/

theorem seen_false_of_cleaned {s : TTLIdempotencyStore} {now now' : Nat}
    {platformId : Nat} {messageId : String}
    (h : (s.seen now platformId messageId).1 = false) :
    (((s.seen now platformId messageId).2).seen now' platformId
      messageId).1 = false := by
  simp only [TTLIdempotencyStore.seen, List.any_eq_false, decide_eq_true_eq]
    at h ⊢
  intro kv hkv
  exact h kv (List.mem_of_mem_filter hkv)

theorem seen_after_mark {s : TTLIdempotencyStore} {now : Nat}
    {platformId : Nat} {messageId : String} (httl : 0 < s.ttl) :
    ((s.mark now platformId messageId).seen now platformId messageId).1
      = true := by
  simp only [TTLIdempotencyStore.mark, TTLIdempotencyStore.seen,
    List.any_eq_true, decide_eq_true_eq]
  refine ⟨((platformId, messageId), now + s.ttl), ?_, rfl⟩
  simp [List.mem_filter, Nat.lt_add_of_pos_right httl]

theorem mem_takeEligibleFailed {now : Nat} {r : EmailInbox} :
    ∀ {l : List EmailInbox} {k : Nat}, r ∈ takeEligibleFailed now l k →
      r ∈ l ∧ backoffElapsed now r = true
  | [], k, h => by simp [takeEligibleFailed] at h
  | x :: xs, 0, h => by simp [takeEligibleFailed] at h
  | x :: xs, Nat.succ k, h => by
    by_cases hb : backoffElapsed now x = true
    · simp only [takeEligibleFailed, hb, if_pos] at h
      rcases List.mem_cons.1 h with rfl | h'
      · exact ⟨List.mem_cons_self _ _, hb⟩
      · have hih := mem_takeEligibleFailed h'
        exact ⟨List.mem_cons_of_mem _ hih.1, hih.2⟩
    · rw [takeEligibleFailed, if_neg hb] at h
      have hih := mem_takeEligibleFailed h
      exact ⟨List.mem_cons_of_mem _ hih.1, hih.2⟩

theorem mem_of_mem_sorted_take {α : Type} {le : α → α → Prop}
    [DecidableRel le] {n : Nat} {p : α → Bool} {l : List α} {a : α}
    (h : a ∈ ((l.filter p).insertionSort le).take n) :
    a ∈ l ∧ p a = true :=
  List.mem_filter.1
    ((List.mem_insertionSort le).1 (List.mem_of_mem_take h))

/-! ## C1 — idempotent durable insert in the email producer -/

/-- C1. When the email producer stores a fetched message whose
`(platform_id, message_id)` key already exists in the ledger, no second
record is created and the attempt is treated as success: the idempotency
store is marked and the source email is flagged `\\Seen`, exactly as on a
successful insert; on any other store failure the email is neither marked
in the idempotency store nor flagged `\\Seen`, so it remains retrievable in
a later cycle. -/
theorem email_store_duplicate_and_failure (platformId projectId : Nat)
    (st : EmailProducerState) (raw : RawEmail) (now : Nat) (dbOk : Bool)
    (httl : 0 < st.idem.ttl)
    (hseen : (st.idem.seen now platformId raw.messageId).1 = false) :
    (ledgerHasKey st.ledger platformId raw.messageId = true →
      (storeSingleRaw platformId projectId st raw now dbOk).2 = .duplicate ∧
      (storeSingleRaw platformId projectId st raw now dbOk).1.ledger
        = st.ledger ∧
      ((storeSingleRaw platformId projectId st raw now dbOk).1.idem.seen
        now platformId raw.messageId).1 = true ∧
      (storeSingleRaw platformId projectId st raw now dbOk).1.seenUids
        = markSeenOpt st.seenUids raw.imapUid ∧
      (∀ u, raw.imapUid = some u →
        u ∈ (storeSingleRaw platformId projectId st raw now dbOk).1.seenUids)) ∧
    (ledgerHasKey st.ledger platformId raw.messageId = false →
      (storeSingleRaw platformId projectId st raw now true).2 = .inserted ∧
      ((storeSingleRaw platformId projectId st raw now true).1.idem.seen
        now platformId raw.messageId).1 = true ∧
      (storeSingleRaw platformId projectId st raw now true).1.seenUids
        = markSeenOpt st.seenUids raw.imapUid) ∧
    (ledgerHasKey st.ledger platformId raw.messageId = false →
      (storeSingleRaw platformId projectId st raw now false).2 = .storeError ∧
      (storeSingleRaw platformId projectId st raw now false).1.ledger
        = st.ledger ∧
      ((storeSingleRaw platformId projectId st raw now false).1.idem.seen
        now platformId raw.messageId).1 = false ∧
      (storeSingleRaw platformId projectId st raw now false).1.seenUids
        = st.seenUids) := by
  have hdupEq : ledgerHasKey st.ledger platformId raw.messageId = true →
      ∀ b, storeSingleRaw platformId projectId st raw now b =
        ({ idem := (st.idem.seen now platformId raw.messageId).2.mark now
             platformId raw.messageId
           ledger := st.ledger
           seenUids := markSeenOpt st.seenUids raw.imapUid }, .duplicate) := by
    intro hdup b
    simp [storeSingleRaw, hseen, hdup]
  have hokEq : ledgerHasKey st.ledger platformId raw.messageId = false →
      storeSingleRaw platformId projectId st raw now true =
        ({ idem := (st.idem.seen now platformId raw.messageId).2.mark now
             platformId raw.messageId
           ledger := st.ledger ++ [mkEmailRow platformId projectId raw now]
           seenUids := markSeenOpt st.seenUids raw.imapUid }, .inserted) := by
    intro hnew
    simp [storeSingleRaw, hseen, hnew]
  have herrEq : ledgerHasKey st.ledger platformId raw.messageId = false →
      storeSingleRaw platformId projectId st raw now false =
        ({ st with idem := (st.idem.seen now platformId raw.messageId).2 },
          .storeError) := by
    intro hnew
    simp [storeSingleRaw, hseen, hnew]
  refine ⟨fun hdup => ?_, fun hnew => ?_, fun hnew => ?_⟩
  · rw [hdupEq hdup]
    refine ⟨rfl, rfl, seen_after_mark httl, rfl, ?_⟩
    intro u hu
    simp [markSeenOpt, hu]
  · rw [hokEq hnew]
    exact ⟨rfl, seen_after_mark httl, rfl⟩
  · rw [herrEq hnew]
    exact ⟨rfl, rfl, seen_false_of_cleaned hseen, rfl⟩

/-- Witness for C1 at a concrete state: empty idempotency store with a
one-hour TTL, a ledger already holding the key `(7, "m1")`. -/
theorem email_store_duplicate_and_failure_witness :
    (storeSingleRaw 7 1 sampleDupState sampleRaw 100 true).2 = .duplicate ∧
      (storeSingleRaw 7 1 sampleDupState sampleRaw 100 true).1.ledger
        = sampleDupState.ledger ∧
      "u1" ∈ (storeSingleRaw 7 1 sampleDupState sampleRaw
        100 true).1.seenUids := by
  have h := email_store_duplicate_and_failure 7 1 sampleDupState sampleRaw
    100 true (by decide) (by decide)
  have hdup := h.1 (by decide)
  exact ⟨hdup.1, hdup.2.1, hdup.2.2.2.2 "u1" rfl⟩

/-! ## C2 — backoff gate on re-claiming failed records -/

theorem selected_failed_eligible (recs : List EmailInbox)
    (platformId batchSize maxRetries now : Nat) (r : EmailInbox)
    (hmem : r ∈ selectCandidates recs platformId batchSize maxRetries now)
    (hfail : r.status = .failed) :
    r.retryCount < maxRetries ∧
      (r.processedAt = none ∨
        ∃ t, r.processedAt = some t ∧
          backoffDelay r.retryCount ≤ now - t) := by
  unfold selectCandidates at hmem
  by_cases hrem : batchSize -
      (((recs.filter (fun r =>
          r.platformId = platformId ∧ r.status = .pending)).insertionSort
        (fun a b => fetchedAtLe a b = true)).take batchSize).length = 0
  · rw [if_pos hrem] at hmem
    have := (mem_of_mem_sorted_take hmem).2
    simp only [decide_eq_true_eq] at this
    rw [hfail] at this
    exact absurd this.2 (by simp)
  · rw [if_neg hrem] at hmem
    rcases List.mem_append.1 hmem with hp | hf
    · have := (mem_of_mem_sorted_take hp).2
      simp only [decide_eq_true_eq] at this
      rw [hfail] at this
      exact absurd this.2 (by simp)
    · obtain ⟨hpool, helapsed⟩ := mem_takeEligibleFailed hf
      have := (mem_of_mem_sorted_take hpool).2
      simp only [decide_eq_true_eq] at this
      refine ⟨this.2.2, ?_⟩
      unfold backoffElapsed at helapsed
      cases hpa : r.processedAt with
      | none => exact Or.inl rfl
      | some t =>
        rw [hpa] at helapsed
        exact Or.inr ⟨t, rfl, by simpa using helapsed⟩

/-- C2. In every consumer selection cycle, a ledger record with status
`failed` is added to the processing batch only when it still has retries
left and its backoff window has elapsed: `processed_at` is unset or at
least `max(1, 2^retry_count)` seconds lie between `processed_at` and the
cycle's current time. -/
theorem failed_selection_respects_backoff (recs : List EmailInbox)
    (platformId batchSize maxRetries now : Nat) (r : EmailInbox)
    (hmem : r ∈ selectCandidates recs platformId batchSize maxRetries now)
    (hfail : r.status = .failed) :
    r.retryCount < maxRetries ∧
      (r.processedAt = none ∨
        ∃ t, r.processedAt = some t ∧
          backoffDelay r.retryCount ≤ now - t) :=
  selected_failed_eligible recs platformId batchSize maxRetries now r
    hmem hfail

/-- Witness for C2: one failed record with `retry_count = 1`,
`processed_at = 10`, selected at `now = 12` (delay 2 elapsed). -/
theorem failed_selection_respects_backoff_witness :
    sampleFailedRow ∈ selectCandidates [sampleFailedRow] 7 5 3 12 ∧
      sampleFailedRow.retryCount < 3 ∧
      (sampleFailedRow.processedAt = none ∨
        ∃ t, sampleFailedRow.processedAt = some t ∧
          backoffDelay sampleFailedRow.retryCount ≤ 12 - t) := by
  have hmem : sampleFailedRow ∈ selectCandidates [sampleFailedRow] 7 5 3 12 :=
    by decide
  exact ⟨hmem, failed_selection_respects_backoff [sampleFailedRow] 7 5 3 12
    sampleFailedRow hmem (by decide)⟩

/-! ## C3 — permanently failed records are frozen, never deleted -/

/-- C3. A record with status `failed` and
`retry_count >= max_retries` is never selected as a processing candidate:
a full consumer cycle keeps the table's size unchanged and carries the
record through untouched. -/
theorem retry_ceiling_never_selected (recs : List EmailInbox)
    (platformId batchSize maxRetries now : Nat)
    (respondOk : EmailInbox → Bool) (reply err : EmailInbox → String)
    (r : EmailInbox) (hfail : r.status = .failed)
    (hceil : maxRetries ≤ r.retryCount) :
    r ∉ selectCandidates recs platformId batchSize maxRetries now ∧
    (consumerCycle recs platformId batchSize maxRetries now respondOk
        reply err).length = recs.length ∧
    (r ∈ recs → r ∈ consumerCycle recs platformId batchSize maxRetries now
        respondOk reply err) := by
  have hnot : r ∉ selectCandidates recs platformId batchSize maxRetries now := by
    intro hmem
    have := selected_failed_eligible recs platformId batchSize
      maxRetries now r hmem hfail
    exact absurd this.1 (Nat.not_lt.2 hceil)
  refine ⟨hnot, ?_, fun hr => ?_⟩
  · simp [consumerCycle]
  · unfold consumerCycle
    exact List.mem_map.2 ⟨r, hr, by simp [hnot]⟩

/-- Witness for C3: a failed record at the retry ceiling is skipped and
survives a cycle unchanged. -/
theorem retry_ceiling_never_selected_witness :
    sampleCeilRow ∉ selectCandidates [sampleCeilRow] 7 5 3 100 ∧
      (consumerCycle [sampleCeilRow] 7 5 3 100 (fun _ => true)
        (fun _ => "") (fun _ => "")).length = 1 ∧
      sampleCeilRow ∈ consumerCycle [sampleCeilRow] 7 5 3 100
        (fun _ => true) (fun _ => "") (fun _ => "") := by
  have h := retry_ceiling_never_selected [sampleCeilRow] 7 5 3 100
    (fun _ => true) (fun _ => "") (fun _ => "") sampleCeilRow (by decide)
    (by decide)
  exact ⟨h.1, h.2.1, h.2.2 (List.mem_singleton.2 rfl)⟩

/-! ## C4 — at most one waiting entry per (project, visitor) -/

theorem enqueue_insert_case (entries : List QueueEntry) (visitor : Visitor)
    (projectId : Nat) (message channelId : String) (channelType : Nat)
    (reason : String) (rule : Option AssignmentRule)
    (defaultMinutes now newId : Nat) (helig : visitor.isUnassigned = true)
    (hfind : findWaiting entries visitor.id projectId = none) :
    ∃ x : QueueEntry,
      (addVisitorToWaitingQueue entries visitor projectId message channelId
        channelType reason rule defaultMinutes now newId).1
          = entries ++ [x] ∧
      x.visitorId = visitor.id ∧ x.projectId = projectId ∧
      x.status = .waiting ∧ x.id = newId ∧
      x.position = waitingCount entries projectId + 1 ∧
      x.expiredAt =
        some (now + effectiveTimeoutMinutes rule defaultMinutes * 60) ∧
      (addVisitorToWaitingQueue entries visitor projectId message channelId
        channelType reason rule defaultMinutes now newId).2.1
          = visitor.setStatusQueued ∧
      (addVisitorToWaitingQueue entries visitor projectId message channelId
        channelType reason rule defaultMinutes now newId).2.2
          = { success := true
              queuePosition := waitingCount entries projectId + 1
              queueEntryId := some newId, alreadyInQueue := false
              cannotEnter := false, currentStatus := none } := by
  refine ⟨{ id := newId, projectId := projectId, visitorId := visitor.id
            priority := 1
            position := waitingCount entries projectId + 1
            status := .waiting, source := "system", urgency := "normal"
            visitorMessage := message, reason := some reason
            channelId := channelId, channelType := channelType
            expiredAt := some (now +
              effectiveTimeoutMinutes rule defaultMinutes * 60)
            lastAttemptAt := none, attemptCount := 0
            assignedStaffId := none, assignedAt := none
            exitedAt := none }, ?_, rfl, rfl, rfl, rfl, rfl, rfl, ?_, ?_⟩ <;>
    simp [addVisitorToWaitingQueue, helig, hfind]

theorem atMostOneWaiting_append_singleton (entries : List QueueEntry)
    (x : QueueEntry) (hinv : atMostOneWaiting entries)
    (hnew : ∀ e ∈ entries,
      ¬(e.visitorId = x.visitorId ∧ e.projectId = x.projectId ∧
        e.status = .waiting)) :
    atMostOneWaiting (entries ++ [x]) := by
  intro pid vid
  rw [List.filter_append, List.length_append]
  by_cases hpair : vid = x.visitorId ∧ pid = x.projectId
  · obtain ⟨rfl, rfl⟩ := hpair
    have hempty : entries.filter (fun e =>
        e.visitorId = x.visitorId ∧ e.projectId = x.projectId ∧
          e.status = .waiting) = [] := by
      rw [List.filter_eq_nil_iff]
      intro e he
      simpa using hnew e he
    rw [hempty]
    simpa using (List.length_filter_le _ [x]).trans (by simp)
  · have hx : ¬(x.visitorId = vid ∧ x.projectId = pid ∧
        x.status = WaitingStatus.waiting) := by
      intro ⟨h1, h2, _⟩
      exact hpair ⟨h1.symm, h2.symm⟩
    have hone : (List.filter (fun e =>
        decide (e.visitorId = vid ∧ e.projectId = pid ∧
          e.status = WaitingStatus.waiting)) [x]).length = 0 := by
      simp [hx]
    rw [hone]
    simpa using hinv pid vid

/-- C4. If enqueue is called while a `waiting` entry already exists for
the `(project_id, visitor_id)` pair, no new entry is created and a success
result carrying the existing entry's position and id with
`already_in_queue` set is returned; and enqueue preserves the invariant
that at most one `waiting` entry per pair exists. -/
theorem enqueue_at_most_one_waiting (entries : List QueueEntry)
    (visitor : Visitor) (projectId : Nat) (message channelId : String)
    (channelType : Nat) (reason : String) (rule : Option AssignmentRule)
    (defaultMinutes now newId : Nat)
    (hinv : atMostOneWaiting entries) :
    (visitor.isUnassigned = true →
      ∀ ex, findWaiting entries visitor.id projectId = some ex →
        addVisitorToWaitingQueue entries visitor projectId message
            channelId channelType reason rule defaultMinutes now newId =
          (entries, visitor,
            { success := true, queuePosition := ex.position
              queueEntryId := some ex.id, alreadyInQueue := true
              cannotEnter := false, currentStatus := none })) ∧
    atMostOneWaiting
      (addVisitorToWaitingQueue entries visitor projectId message
        channelId channelType reason rule defaultMinutes now newId).1 := by
  constructor
  · intro helig ex hex
    simp [addVisitorToWaitingQueue, helig, hex]
  · by_cases helig : visitor.isUnassigned = true
    · cases hfind : findWaiting entries visitor.id projectId with
      | some ex =>
        simpa [addVisitorToWaitingQueue, helig, hfind] using hinv
      | none =>
        have hnone := List.find?_eq_none.1 hfind
        obtain ⟨x, hx, hvid, hpid, hstat, -⟩ :=
          enqueue_insert_case entries visitor projectId message channelId
            channelType reason rule defaultMinutes now newId helig hfind
        rw [hx]
        refine atMostOneWaiting_append_singleton entries x hinv ?_
        intro e he hcontra
        refine hnone e he ?_
        rw [hvid, hpid] at hcontra
        simpa using hcontra
    · simp only [addVisitorToWaitingQueue, helig, if_neg, not_false_iff,
        Bool.false_eq_true, if_true]
      exact hinv

/-- Witness for C4: a queue already holding one waiting entry for visitor
42 in project 9; a second enqueue returns the existing position and id. -/
theorem enqueue_at_most_one_waiting_witness :
    atMostOneWaiting [sampleEntry] ∧
      sampleVisitorQueued.isUnassigned = true ∧
      findWaiting [sampleEntry] 42 9 = some sampleEntry ∧
      addVisitorToWaitingQueue [sampleEntry] sampleVisitorQueued 9 "m2"
          "ch" 1 "r2" none 30 5 78 =
        ([sampleEntry], sampleVisitorQueued,
          { success := true, queuePosition := 1, queueEntryId := some 77
            alreadyInQueue := true, cannotEnter := false
            currentStatus := none }) := by
  have hinv : atMostOneWaiting [sampleEntry] := by
    intro pid vid
    simp only [List.filter]
    split <;> simp
  refine ⟨hinv, by decide, by decide, ?_⟩
  exact (enqueue_at_most_one_waiting [sampleEntry] sampleVisitorQueued 9
    "m2" "ch" 1 "r2" none 30 5 78 hinv).1 (by decide) sampleEntry
    (by decide)

/-! ## C5 — fresh enqueue inserts exactly one waiting entry -/

/-- C5. Enqueue for an eligible visitor with no existing `waiting`
entry inserts exactly one new entry with status `waiting`, position equal
to the project's current waiting count plus one, and `expired_at` equal to
the current time plus the configured timeout in minutes (the per-project
assignment rule's value when set, otherwise the configured default), and
flips the visitor's state to `queued`. -/
theorem enqueue_fresh_insert (entries : List QueueEntry) (visitor : Visitor)
    (projectId : Nat) (message channelId : String) (channelType : Nat)
    (reason : String) (rule : Option AssignmentRule)
    (defaultMinutes now newId : Nat) (helig : visitor.isUnassigned = true)
    (hfind : findWaiting entries visitor.id projectId = none) :
    (∃ x : QueueEntry,
      (addVisitorToWaitingQueue entries visitor projectId message channelId
        channelType reason rule defaultMinutes now newId).1
          = entries ++ [x] ∧
      x.status = .waiting ∧
      x.position = waitingCount entries projectId + 1 ∧
      x.expiredAt =
        some (now + effectiveTimeoutMinutes rule defaultMinutes * 60)) ∧
    (addVisitorToWaitingQueue entries visitor projectId message channelId
      channelType reason rule defaultMinutes now newId).1.length
        = entries.length + 1 ∧
    (addVisitorToWaitingQueue entries visitor projectId message channelId
      channelType reason rule defaultMinutes now
        newId).2.1.serviceStatus = .queued ∧
    (∀ t, 0 < t → rule = some ⟨some t⟩ →
      effectiveTimeoutMinutes rule defaultMinutes = t) ∧
    (rule = none →
      effectiveTimeoutMinutes rule defaultMinutes = defaultMinutes) ∧
    (rule = some ⟨none⟩ →
      effectiveTimeoutMinutes rule defaultMinutes = defaultMinutes) := by
  obtain ⟨x, hx, -, -, hstat, -, hpos, hexp, hvis, -⟩ :=
    enqueue_insert_case entries visitor projectId message channelId
      channelType reason rule defaultMinutes now newId helig hfind
  refine ⟨⟨x, hx, hstat, hpos, hexp⟩, ?_, ?_, ?_, ?_, ?_⟩
  · rw [hx]
    simp
  · rw [hvis]
    rfl
  · intro t ht hrule
    subst hrule
    simp [effectiveTimeoutMinutes, Nat.pos_iff_ne_zero.1 ht]
  · intro hrule
    subst hrule
    rfl
  · intro hrule
    subst hrule
    rfl

/-- Witness for C5: empty queue, eligible visitor, rule overriding the
timeout to 10 minutes; the inserted entry sits at position 1 and expires
600 seconds after `now = 1000`. -/
theorem enqueue_fresh_insert_witness :
    sampleVisitorNew.isUnassigned = true ∧ findWaiting [] 42 9 = none ∧
      ((∃ x : QueueEntry,
        (addVisitorToWaitingQueue [] sampleVisitorNew 9 "m" "ch" 1 "r"
          (some ⟨some 10⟩) 30 1000 77).1 = [] ++ [x] ∧
        x.status = .waiting ∧ x.position = waitingCount [] 9 + 1 ∧
        x.expiredAt =
          some (1000 + effectiveTimeoutMinutes (some ⟨some 10⟩) 30 * 60)) ∧
      (addVisitorToWaitingQueue [] sampleVisitorNew 9 "m" "ch" 1 "r"
        (some ⟨some 10⟩) 30 1000 77).1.length = 1 ∧
      (addVisitorToWaitingQueue [] sampleVisitorNew 9 "m" "ch" 1 "r"
        (some ⟨some 10⟩) 30 1000 77).2.1.serviceStatus = .queued ∧
      effectiveTimeoutMinutes (some ⟨some 10⟩) 30 = 10) := by
  have h := enqueue_fresh_insert [] sampleVisitorNew 9 "m" "ch" 1 "r"
    (some ⟨some 10⟩) 30 1000 77 (by decide) (by decide)
  exact ⟨by decide, by decide, h.1, h.2.1, h.2.2.1,
    h.2.2.2.1 10 (by decide) rfl⟩

/-! ## C6 — sweep ordering and early stop -/

theorem queueOrder_trans (a b c : QueueEntry) (h1 : queueOrder a b = true)
    (h2 : queueOrder b c = true) : queueOrder a c = true := by
  simp only [queueOrder, decide_eq_true_eq] at h1 h2 ⊢
  rcases h1 with h1 | ⟨h1e, h1p⟩ <;> rcases h2 with h2 | ⟨h2e, h2p⟩
  · exact Or.inl (h2.trans h1)
  · exact Or.inl (by omega)
  · exact Or.inl (by omega)
  · exact Or.inr ⟨h1e.trans h2e, h1p.trans h2p⟩

theorem queueOrder_total (a b : QueueEntry) :
    queueOrder a b = true ∨ queueOrder b a = true := by
  simp only [queueOrder, decide_eq_true_eq]
  rcases lt_trichotomy a.priority b.priority with h | h | h
  · exact Or.inr (Or.inl h)
  · rcases Nat.le_total a.position b.position with hp | hp
    · exact Or.inl (Or.inr ⟨h, hp⟩)
    · exact Or.inr (Or.inr ⟨h.symm, hp⟩)
  · exact Or.inl (Or.inl h)

theorem processInOrder_stops (attempt : QueueEntry → AttemptOutcome) :
    ∀ l : List QueueEntry,
      stopsAtFirstNoStaff attempt l (processInOrder attempt l)
  | [] =>
    ⟨[], rfl, by intro pre last h; simp [processInOrder] at h,
      by intro h; simp at h⟩
  | e :: es => by
    have ih := processInOrder_stops attempt es
    obtain ⟨rest, hsplit, hC1, hC2⟩ := ih
    cases h : attempt e with
    | noStaff =>
      refine ⟨es, by simp [processInOrder, h], ?_, ?_⟩
      · intro pre last hpre
        have hp0 : pre = [] := by
          cases pre with
          | nil => rfl
          | cons p ps =>
            simp only [processInOrder, h] at hpre
            have hlen := congrArg List.length hpre
            simp at hlen
        subst hp0
        intro x hx
        simp at hx
      · intro _
        exact ⟨[], e, by simp [processInOrder, h], h⟩
    | assigned staffId =>
      refine ⟨rest, by simpa [processInOrder, h] using congrArg (e :: ·) hsplit,
        ?_, ?_⟩
      · intro pre last hpre x hx
        simp only [processInOrder, h] at hpre
        cases pre with
        | nil => simp at hx
        | cons p ps =>
          rw [List.cons_append] at hpre
          obtain ⟨rfl, hes⟩ := List.cons.injEq _ _ _ _ ▸ hpre
          rcases List.mem_cons.1 hx with rfl | hx'
          · simp [h]
          · exact hC1 ps last hes x hx'
      · intro hrest
        obtain ⟨pre, last, hpre, hlast⟩ := hC2 hrest
        exact ⟨e :: pre, last, by simp [processInOrder, h, hpre], hlast⟩
    | error =>
      refine ⟨rest, by simpa [processInOrder, h] using congrArg (e :: ·) hsplit,
        ?_, ?_⟩
      · intro pre last hpre x hx
        simp only [processInOrder, h] at hpre
        cases pre with
        | nil => simp at hx
        | cons p ps =>
          rw [List.cons_append] at hpre
          obtain ⟨rfl, hes⟩ := List.cons.injEq _ _ _ _ ▸ hpre
          rcases List.mem_cons.1 hx with rfl | hx'
          · simp [h]
          · exact hC1 ps last hes x hx'
      · intro hrest
        obtain ⟨pre, last, hpre, hlast⟩ := hC2 hrest
        exact ⟨e :: pre, last, by simp [processInOrder, h, hpre], hlast⟩

theorem sorted_take_filter_insertionSort {p : QueueEntry → Bool} {n : Nat}
    {l : List QueueEntry} :
    (((l.filter p).insertionSort
      (fun a b => queueOrder a b = true)).take n).Pairwise
        (fun a b => queueOrder a b = true) := by
  haveI : IsTotal QueueEntry (fun a b => queueOrder a b = true) :=
    ⟨queueOrder_total⟩
  haveI : IsTrans QueueEntry (fun a b => queueOrder a b = true) :=
    ⟨queueOrder_trans⟩
  exact List.Pairwise.sublist (List.take_sublist _ _)
    (List.sorted_insertionSort _ _)

/-- C6. Every assignment sweep — the reactive trigger sweep and the
fallback sweep alike — processes `waiting`, non-expired entries in
priority-descending then position-ascending order
(`queueOrder`-sorted batches of such entries), and stops the batch at the
first entry for which no available staff is found; entries later in that
order are not attempted in the same sweep. -/
theorem sweep_order_and_early_stop (entries : List QueueEntry)
    (projectId now cutoff batchSize : Nat)
    (attempt : QueueEntry → AttemptOutcome) :
    (sweepBatch entries projectId now batchSize).Pairwise
      (fun a b => queueOrder a b = true) ∧
    (∀ e ∈ sweepBatch entries projectId now batchSize,
      e.status = .waiting ∧ notExpired now e = true) ∧
    stopsAtFirstNoStaff attempt
      (sweepBatch entries projectId now batchSize)
      (processInOrder attempt (sweepBatch entries projectId now batchSize)) ∧
    (fallbackProjectGroup entries now cutoff batchSize projectId).Pairwise
      (fun a b => queueOrder a b = true) ∧
    (∀ e ∈ fallbackProjectGroup entries now cutoff batchSize projectId,
      e.status = .waiting ∧ notExpired now e = true) ∧
    stopsAtFirstNoStaff attempt
      (fallbackProjectGroup entries now cutoff batchSize projectId)
      (processInOrder attempt
        (fallbackProjectGroup entries now cutoff batchSize projectId)) := by
  refine ⟨sorted_take_filter_insertionSort, ?_, processInOrder_stops _ _,
    List.Pairwise.sublist (List.filter_sublist _)
      sorted_take_filter_insertionSort, ?_, processInOrder_stops _ _⟩
  · intro e he
    have := (mem_of_mem_sorted_take he).2
    simp only [decide_eq_true_eq] at this
    exact ⟨this.2.1, this.2.2⟩
  · intro e he
    have hb : e ∈ fallbackBatch entries now cutoff batchSize :=
      List.mem_of_mem_filter he
    have := (mem_of_mem_sorted_take hb).2
    simp only [decide_eq_true_eq] at this
    exact ⟨this.1, this.2.1⟩

/-- Witness for C6 at the ordering example of the specification: with
priorities 1, 1, 3 at positions 1, 2, 1 the sweep batch puts the
priority-3 entry first and the priority-1 entries in position order, a
sorted batch is produced, and an always-no-staff responder attempts only
the first entry. -/
theorem sweep_order_and_early_stop_witness :
    (sweepBatch sampleOrderEntries 9 0 50).map (fun e => e.id)
        = [3, 1, 2] ∧
      (sweepBatch sampleOrderEntries 9 0 50).Pairwise
        (fun a b => queueOrder a b = true) ∧
      stopsAtFirstNoStaff (fun _ => .noStaff)
        (sweepBatch sampleOrderEntries 9 0 50)
        (processInOrder (fun _ => .noStaff)
          (sweepBatch sampleOrderEntries 9 0 50)) := by
  have h := sweep_order_and_early_stop sampleOrderEntries 9 0 0 50
    (fun _ => .noStaff)
  exact ⟨by decide, h.1, h.2.2.1⟩

/-! ## C7 — expiration is terminal -/

theorem not_waiting_never_selected (f : QueueEntry)
    (hf : f.status ≠ .waiting) :
    (∀ (l : List QueueEntry) (pid now b : Nat), f ∉ sweepBatch l pid now b) ∧
    (∀ (l : List QueueEntry) (now cutoff b : Nat),
      f ∉ fallbackBatch l now cutoff b) ∧
    (∀ (l : List QueueEntry) (eid : Nat),
      triggerEntryLookup l eid ≠ some f) := by
  refine ⟨fun l pid now b hmem => ?_, fun l now cutoff b hmem => ?_,
    fun l eid hmem => ?_⟩
  · have := (mem_of_mem_sorted_take hmem).2
    simp only [decide_eq_true_eq] at this
    exact hf this.2.1
  · have := (mem_of_mem_sorted_take hmem).2
    simp only [decide_eq_true_eq] at this
    exact hf this.1
  · have := List.find?_some hmem
    simp only [decide_eq_true_eq] at this
    exact hf this.2

/-- C7. Every waiting entry selected by the cleanup sweep (deadline
passed) transitions to status `expired` — with its `QUEUED` visitor reset —
and an expired entry is never subsequently selected by any assignment
path: not by a reactive sweep batch, not by a fallback batch, and not by
the per-entry immediate trigger lookup. -/
theorem expiration_terminal (entries : List QueueEntry)
    (visitors : List Visitor) (now : Nat) (e : QueueEntry)
    (hsel : e ∈ selectExpired entries now) :
    e.expire now ∈ (cleanupExpiredEntries entries visitors now).1 ∧
    (e.expire now).status = .expired ∧
    (∀ v ∈ visitors, v.id = e.visitorId → v.serviceStatus = .queued →
      (cleanupResetVisitor (selectExpired entries now) now v).serviceStatus
        = .closed) ∧
    (∀ (l : List QueueEntry) (pid now' b : Nat),
      e.expire now ∉ sweepBatch l pid now' b) ∧
    (∀ (l : List QueueEntry) (now' cutoff b : Nat),
      e.expire now ∉ fallbackBatch l now' cutoff b) ∧
    (∀ (l : List QueueEntry) (eid : Nat),
      triggerEntryLookup l eid ≠ some (e.expire now)) := by
  have hterm := not_waiting_never_selected (e.expire now) (by
    simp [QueueEntry.expire])
  refine ⟨?_, rfl, ?_, hterm.1, hterm.2.1, hterm.2.2⟩
  · have hment : e ∈ entries :=
      List.mem_of_mem_filter (List.mem_of_mem_take hsel)
    exact List.mem_map.2 ⟨e, hment, by simp [hsel]⟩
  · intro v hv hid hq
    have hany : (selectExpired entries now).any
        (fun x => x.visitorId = v.id) = true :=
      List.any_eq_true.2 ⟨e, hsel, by simp [hid]⟩
    simp [cleanupResetVisitor, hany, hq]

/-- Witness for C7: one waiting entry whose deadline (10) lies before
time 100. -/
theorem expiration_terminal_witness :
    sampleExpiredEntry ∈ selectExpired [sampleExpiredEntry] 100 ∧
      sampleExpiredEntry.expire 100 ∈
        (cleanupExpiredEntries [sampleExpiredEntry]
          [sampleVisitor4Queued] 100).1 ∧
      (sampleExpiredEntry.expire 100).status = .expired ∧
      (∀ (l : List QueueEntry) (eid : Nat),
        triggerEntryLookup l eid ≠ some (sampleExpiredEntry.expire 100)) := by
  have hsel : sampleExpiredEntry ∈ selectExpired [sampleExpiredEntry] 100 :=
    by decide
  have h := expiration_terminal [sampleExpiredEntry] [sampleVisitor4Queued]
    100 sampleExpiredEntry hsel
  exact ⟨hsel, h.1, h.2.1, h.2.2.2.2.2⟩

/-! ## C10 — cleanup's frame effect on visitors -/

/-- C10. When the cleanup sweep expires a waiting entry, it sets the
associated visitor's service status to `CLOSED` only if that status
currently equals `QUEUED`; a visitor in any other status is left entirely
unchanged by the expiry. -/
theorem cleanup_visitor_frame (entries : List QueueEntry)
    (visitors : List Visitor) (now : Nat) (v : Visitor)
    (hv : v ∈ visitors) :
    (v.serviceStatus = .queued →
      (selectExpired entries now).any (fun e => e.visitorId = v.id)
          = true →
      { v with serviceStatus := .closed, updatedAt := now }
        ∈ (cleanupExpiredEntries entries visitors now).2) ∧
    (v.serviceStatus ≠ .queued →
      cleanupResetVisitor (selectExpired entries now) now v = v ∧
      v ∈ (cleanupExpiredEntries entries visitors now).2) := by
  constructor
  · intro hq hany
    exact List.mem_map.2 ⟨v, hv, by simp [cleanupResetVisitor, hany, hq]⟩
  · intro hnq
    have hfix : cleanupResetVisitor (selectExpired entries now) now v = v := by
      simp [cleanupResetVisitor, hnq]
    exact ⟨hfix, List.mem_map.2 ⟨v, hv, hfix⟩⟩

/-- Witness for C10: the entry for visitor 4 expires while the visitor is
already in human service; the visitor row is untouched. -/
theorem cleanup_visitor_frame_witness :
    cleanupResetVisitor (selectExpired [sampleExpiredEntry] 100) 100
        sampleVisitor4Human = sampleVisitor4Human ∧
      sampleVisitor4Human ∈
        (cleanupExpiredEntries [sampleExpiredEntry]
          [sampleVisitor4Human] 100).2 := by
  exact (cleanup_visitor_frame [sampleExpiredEntry] [sampleVisitor4Human]
    100 sampleVisitor4Human (List.mem_singleton.2 rfl)).2 (by decide)

/-! ## C8 — cancel: waiting → cancelled, but non-waiting is rejected

The endpoint `cancel_queue_entry` raises HTTP 400
("Queue entry is not in waiting status") when the entry is not `waiting`,
so cancelling an already-cancelled/assigned/expired entry is not an
idempotent no-op success: it is an explicit rejection that leaves the
entry unchanged. -/

/-- C8, counterexample. At a concrete state holding one `assigned`
entry, the cancel endpoint does not succeed idempotently: it fails with
the HTTP-400 "not waiting" rejection. -/
theorem cancel_assigned_entry_rejected :
    cancelQueueEntry [sampleAssignedEntry] 1 9 none 50
      = .error (.notWaiting .assigned) := by
  rfl

/-- C8, amended. Cancelling a `waiting` entry transitions it to
`cancelled`; cancelling an entry that is already non-waiting is rejected
with an HTTP 400 error (`notWaiting`) and leaves the queue unchanged —
the operation fails rather than acting as an idempotent no-op. -/
theorem cancel_waiting_or_reject (entries : List QueueEntry)
    (entryId projectId : Nat) (reason : Option String) (now : Nat)
    (entry : QueueEntry)
    (hfind : entries.find?
      (fun e => e.id = entryId ∧ e.projectId = projectId) = some entry) :
    (entry.status = .waiting →
      ∃ c : QueueEntry, c.status = .cancelled ∧
        cancelQueueEntry entries entryId projectId reason now =
          .ok (entries.map (fun e => if e = entry then c else e))) ∧
    (entry.status ≠ .waiting →
      cancelQueueEntry entries entryId projectId reason now =
        .error (.notWaiting entry.status)) := by
  constructor
  · intro hw
    refine ⟨cancelledEntry entry reason now, ?_, ?_⟩
    · cases reason <;> rfl
    · unfold cancelQueueEntry
      rw [hfind]
      simp [hw]
  · intro hnw
    unfold cancelQueueEntry
    rw [hfind]
    simp [hnw]

/-- Witness for the amended C8: cancelling a concrete waiting entry
succeeds and marks it `cancelled`. -/
theorem cancel_waiting_or_reject_witness :
    ∃ c : QueueEntry, c.status = .cancelled ∧
      cancelQueueEntry [sampleWaitEntry] 1 9 none 50 =
        .ok ([sampleWaitEntry].map
          (fun x => if x = sampleWaitEntry then c else x)) := by
  exact (cancel_waiting_or_reject [sampleWaitEntry] 1 9 none 50
    sampleWaitEntry (by decide)).1 rfl

/-! ## C9 — reactive trigger mutual exclusion -/

theorem triggerStep_preserves_inv (s : TriggerState) (ev : TriggerEvent)
    (h : TriggerInv s) : TriggerInv (triggerStep s ev) := by
  obtain ⟨hip, has, hsub⟩ := h
  cases ev with
  | trigger pid =>
    by_cases hmem : pid ∈ s.inProgress
    · simpa [triggerStep, hmem] using ⟨hip, has, hsub⟩
    · have hnas : pid ∉ s.activeSweeps := fun hc => hmem (hsub pid hc)
      refine ⟨?_, ?_, ?_⟩ <;> simp only [triggerStep, hmem, if_neg,
        not_false_iff]
      · exact List.nodup_cons.2 ⟨hmem, hip⟩
      · exact List.nodup_cons.2 ⟨hnas, has⟩
      · intro q hq
        rcases List.mem_cons.1 hq with rfl | hq'
        · exact List.mem_cons_self _ _
        · exact List.mem_cons_of_mem _ (hsub q hq')
  | finish pid =>
    refine ⟨hip.erase pid, has.erase pid, ?_⟩
    intro q hq
    have hq' := (has.mem_erase_iff).1 hq
    exact (List.mem_erase_of_ne hq'.1).2 (hsub q hq'.2)

theorem triggerRun_inv_aux :
    ∀ (events : List TriggerEvent) (s : TriggerState), TriggerInv s →
      TriggerInv (events.foldl triggerStep s)
  | [], _, h => h
  | ev :: evs, s, h =>
    triggerRun_inv_aux evs (triggerStep s ev)
      (triggerStep_preserves_inv s ev h)

/-- C9. Along every event trace from process start, the reactive
trigger's bookkeeping keeps at most one active sweep per project
(`count ≤ 1`); a trigger call for a project already in the in-progress set
is a complete no-op (no state change, no new sweep); and the only event
that ever removes a project from the in-progress set is the completion —
normal or erroneous — of that project's sweep. -/
theorem trigger_concurrency_safety (events : List TriggerEvent)
    (pid : Nat) :
    TriggerInv (triggerRun events) ∧
    (triggerRun events).activeSweeps.count pid ≤ 1 ∧
    (pid ∈ (triggerRun events).inProgress →
      triggerStep (triggerRun events) (.trigger pid) = triggerRun events) ∧
    (∀ (s : TriggerState) (ev : TriggerEvent), pid ∈ s.inProgress →
      pid ∉ (triggerStep s ev).inProgress → ev = .finish pid) := by
  have hinv : TriggerInv (triggerRun events) :=
    triggerRun_inv_aux events ⟨[], []⟩ ⟨List.nodup_nil, List.nodup_nil,
      by intro q hq; cases hq⟩
  refine ⟨hinv, List.nodup_iff_count_le_one.1 hinv.2.1 pid,
    fun hmem => by simp [triggerStep, hmem], ?_⟩
  intro s ev hmem hgone
  cases ev with
  | trigger q =>
    exfalso
    by_cases hq : q ∈ s.inProgress
    · rw [triggerStep, if_pos hq] at hgone
      exact hgone hmem
    · rw [triggerStep, if_neg hq] at hgone
      exact hgone (List.mem_cons_of_mem _ hmem)
  | finish q =>
    by_cases hq : q = pid
    · rw [hq]
    · exfalso
      rw [triggerStep] at hgone
      exact hgone ((List.mem_erase_of_ne (fun hc => hq hc.symm)).2 hmem)

/-- Witness for C9 on a concrete trace: after two trigger calls for
project 3, only one sweep is active, and a third trigger call while
project 3 is still in progress changes nothing. -/
theorem trigger_concurrency_safety_witness :
    (triggerRun [.trigger 3, .trigger 3]).activeSweeps.count 3 ≤ 1 ∧
      3 ∈ (triggerRun [.trigger 3, .trigger 3]).inProgress ∧
      triggerStep (triggerRun [.trigger 3, .trigger 3]) (.trigger 3)
        = triggerRun [.trigger 3, .trigger 3] := by
  have h := trigger_concurrency_safety [.trigger 3, .trigger 3] 3
  exact ⟨h.2.1, by decide, h.2.2.1 (by decide)⟩

end Tgo
